import Mathlib

set_option linter.unusedVariables false

/-!
Shallow embedding of the thomasvincent.firewall Ansible collection:
plugins/filter/firewall_filters.py, plugins/lookup/firewall_ports.py and
plugins/modules/firewall_rule.py.  Python values that may be an int or a
str are modelled by sum types; Python exceptions by Option/Except.
-/

/-- A Python value in a port position: an int, a str, or some other
object.  The constructor other stands for a truthy non-int, non-str
object whose str() rendering contains no dash and on which int() raises
(TypeError for a non-empty list or a dict, for example); it is the domain
on which the source's duck-typed branches behave uniformly.  Falsy
objects (None, an empty list) in a port position are already covered by
the missing-port case, and a float (where int() truncates instead of
raising) is outside the modelled domain. -/
inductive PyVal where
  | int (n : Int)
  | str (s : String)
  | other
  deriving DecidableEq

/-- A Python scalar that is an int or a str (the YAML scalar domain the
lookup plugin and rule dictionaries use). -/
inductive PyScalar where
  | int (n : Int)
  | str (s : String)
  deriving DecidableEq

/-! ### Python string primitives, modelled over List Char -/

/-- The whitespace characters Python str.strip removes (ASCII subset). -/
def isPySpace (c : Char) : Bool :=
  c == ' ' || c == '\t' || c == '\n' || c == '\r' || c == '\x0b' || c == '\x0c'

def stripChars (l : List Char) : List Char :=
  ((l.dropWhile isPySpace).reverse.dropWhile isPySpace).reverse

/-- Models Python str.strip(). -/
def pyStrip (s : String) : String := ⟨stripChars s.data⟩

def isDigitCh (c : Char) : Bool := decide ('0' ≤ c) && decide (c ≤ '9')

def digitVal (c : Char) : Nat := c.toNat - 48

/-- Value of a list of decimal digit characters, most significant first. -/
def digitsToNat (l : List Char) : Nat := l.foldl (fun a c => 10 * a + digitVal c) 0

def parseDigits (l : List Char) : Option Nat :=
  if !l.isEmpty && l.all isDigitCh then some (digitsToNat l) else none

/-- Models Python int(str): surrounding whitespace is stripped, one leading
sign is allowed, the rest must be decimal digits.  (Unicode digits and
underscore separators are not modelled.)  none models a raised ValueError. -/
def pyIntChars (l : List Char) : Option Int :=
  match stripChars l with
  | '+' :: rest => (parseDigits rest).map (fun n => (n : Int))
  | '-' :: rest => (parseDigits rest).map (fun n => -(n : Int))
  | rest => (parseDigits rest).map (fun n => (n : Int))

def pyInt (s : String) : Option Int := pyIntChars s.data

/-- Models Python str.isdigit (ASCII digits). -/
def pyIsdigit (l : List Char) : Bool := !l.isEmpty && l.all isDigitCh

def splitOnCharAux (c : Char) : List Char → List Char → List (List Char)
  | [], acc => [acc.reverse]
  | x :: xs, acc =>
    if x = c then acc.reverse :: splitOnCharAux c xs []
    else splitOnCharAux c xs (x :: acc)

/-- Models Python str.split(sep) for a one-character separator: splits at
every occurrence, keeping empty parts. -/
def splitOnChar (c : Char) (l : List Char) : List (List Char) := splitOnCharAux c l []

def digitChar (d : Nat) : Char :=
  match d with
  | 0 => '0' | 1 => '1' | 2 => '2' | 3 => '3' | 4 => '4'
  | 5 => '5' | 6 => '6' | 7 => '7' | 8 => '8' | _ => '9'

def renderNatCore : Nat → Nat → List Char → List Char
  | 0, _, acc => acc
  | fuel + 1, n, acc =>
    if n < 10 then digitChar n :: acc
    else renderNatCore fuel (n / 10) (digitChar (n % 10) :: acc)

/-- Decimal rendering of a natural number; models Python str() on a
nonnegative int. -/
def renderNat (n : Nat) : String := ⟨renderNatCore (n + 1) n []⟩

/-- Models Python str() on an int. -/
def renderInt (n : Int) : String :=
  if n < 0 then "-" ++ renderNat n.natAbs else renderNat n.toNat

/-- Models Python str() on a PyVal (see the PyVal doc for other). -/
def pyStr : PyVal → String
  | .int n => renderInt n
  | .str s => s
  | .other => "object"

def scalarStr : PyScalar → String
  | .int n => renderInt n
  | .str s => s

def startsWithList : List Char → List Char → Bool
  | _, [] => true
  | [], _ :: _ => false
  | a :: as, b :: bs => a == b && startsWithList as bs

def containsList : List Char → List Char → Bool
  | [], pat => pat.isEmpty
  | a :: rest, pat => startsWithList (a :: rest) pat || containsList rest pat

/-- Models the Python substring test pat in s. -/
def strContains (s pat : String) : Bool := containsList s.data pat.data

def lowerChar (c : Char) : Char :=
  if decide ('A' ≤ c) && decide (c ≤ 'Z') then Char.ofNat (c.toNat + 32) else c

/-- Models Python str.lower() on ASCII text. -/
def asciiLower (s : String) : String := ⟨s.data.map lowerChar⟩

/-- Python dict lookup d.get(k) over an association list.  All the
dictionaries of this code base have pairwise distinct keys, so first-match
lookup coincides with Python dict semantics. -/
def lookupAssoc {α β : Type} [BEq α] (l : List (α × β)) (k : α) : Option β :=
  (l.find? (fun kv => kv.1 == k)).map (fun kv => kv.2)

/-- Models the Python idiom start, end = map(int, s.split('-')):
some (a, b) when the split has exactly two parts and both parse as ints,
none where Python raises ValueError (wrong part count or a bad literal). -/
def pyParseRange (s : String) : Option (Int × Int) :=
  match (splitOnChar '-' s.data).map pyIntChars with
  | [some a, some b] => some (a, b)
  | _ => none

/-! ### plugins/filter/firewall_filters.py -/

/-- firewall_filters.py lines 23-44. -/
def validate_port : PyVal → Bool
  | .int n => decide (1 ≤ n) && decide (n ≤ 65535)
  | .str s =>
    if '-' ∈ s.data then
      match pyParseRange s with
      | some (a, b) => decide (1 ≤ a) && decide (a ≤ b) && decide (b ≤ 65535)
      | none => false
    else
      match pyInt s with
      | some n => decide (1 ≤ n) && decide (n ≤ 65535)
      | none => false
  | .other => false

/-- A raised Python exception: the explicit AnsibleFilterError, or an
uncaught ValueError escaping from int(). -/
inductive PyErr where
  | filterError (msg : String)
  | valueError
  deriving DecidableEq

/-- firewall_filters.py lines 75-87 (normalize_port_range).  The dash
branch and the int() call sit outside any try, so a parse failure is an
uncaught ValueError; only a non-int, non-str argument reaches the explicit
AnsibleFilterError. -/
def normalize_port_range : PyVal → Except PyErr String
  | .int n => .ok (renderInt n)
  | .str s0 =>
    if '-' ∈ (pyStrip s0).data then
      match pyParseRange (pyStrip s0) with
      | some (a, b) => .ok (renderInt a ++ "-" ++ renderInt b)
      | none => .error .valueError
    else
      match pyInt (pyStrip s0) with
      | some n => .ok (renderInt n)
      | none => .error .valueError
  | .other => .error (.filterError "Invalid port format")

/-- The services dict of port_to_service (firewall_filters.py lines 92-113),
keyed by (str(port), protocol). -/
def portServiceTable : List ((String × String) × String) :=
  [(("20", "tcp"), "ftp-data"), (("21", "tcp"), "ftp"), (("22", "tcp"), "ssh"),
   (("23", "tcp"), "telnet"), (("25", "tcp"), "smtp"), (("53", "tcp"), "dns"),
   (("53", "udp"), "dns"), (("80", "tcp"), "http"), (("110", "tcp"), "pop3"),
   (("143", "tcp"), "imap"), (("443", "tcp"), "https"), (("465", "tcp"), "smtps"),
   (("587", "tcp"), "submission"), (("993", "tcp"), "imaps"), (("995", "tcp"), "pop3s"),
   (("3306", "tcp"), "mysql"), (("5432", "tcp"), "postgresql"), (("6379", "tcp"), "redis"),
   (("8080", "tcp"), "http-alt"), (("8443", "tcp"), "https-alt")]

/-- firewall_filters.py lines 90-115. -/
def port_to_service (port : PyVal) (protocol : String) : Option String :=
  lookupAssoc portServiceTable (pyStr port, asciiLower protocol)

/-- The services dict of service_to_port (firewall_filters.py lines 120-139). -/
def servicePortTable : List (String × Int) :=
  [("ftp", 21), ("ssh", 22), ("telnet", 23), ("smtp", 25), ("dns", 53),
   ("http", 80), ("pop3", 110), ("imap", 143), ("https", 443), ("smtps", 465),
   ("submission", 587), ("imaps", 993), ("pop3s", 995), ("mysql", 3306),
   ("postgresql", 5432), ("redis", 6379), ("http-alt", 8080), ("https-alt", 8443)]

/-- firewall_filters.py lines 118-141. -/
def service_to_port (service : String) : Option Int :=
  lookupAssoc servicePortTable (asciiLower service)

/-- A rule dictionary as filter_rules_by_port_range consumes it:
rule.get('port') yields None or an arbitrary value. -/
structure PRule where
  name : String
  port : Option PyVal
  deriving DecidableEq

/-- The loop body of filter_rules_by_port_range (firewall_filters.py lines
161-179): a falsy port (missing, 0 or the empty string) is skipped; an int
or a parsed string range is tested against the window; a ValueError from a
failed string parse is caught as a skip; but a truthy non-int, non-str
port reaches int(port) at line 175 and raises a TypeError that the except
clause (ValueError, AttributeError) at line 178 does not catch.
some keep means the iteration continues with this keep decision; none
means the uncaught exception aborts the whole call. -/
def ruleFilterStep (mn mx : Int) (r : PRule) : Option Bool :=
  match r.port with
  | none => some false
  | some (.int n) =>
    if n = 0 then some false
    else some (decide (mn ≤ n) && decide (n ≤ mx))
  | some (.str s) =>
    if s.data.isEmpty then some false
    else if '-' ∈ s.data then
      match pyParseRange s with
      | some (a, b) => some (!(decide (b < mn) || decide (mx < a)))
      | none => some false
    else
      match pyInt s with
      | some n => some (decide (mn ≤ n) && decide (n ≤ mx))
      | none => some false
  | some .other => none

/-- The accumulation loop of filter_rules_by_port_range, propagating an
uncaught exception. -/
def filterLoop (mn mx : Int) : List PRule → Option (List PRule)
  | [] => some []
  | r :: rest =>
    match ruleFilterStep mn mx r with
    | none => none
    | some true => (filterLoop mn mx rest).map (fun l => r :: l)
    | some false => filterLoop mn mx rest

/-- firewall_filters.py lines 157-181; none models an exception raised to
the caller. -/
def filter_rules_by_port_range (rules : List PRule) (mn mx : Int) : Option (List PRule) :=
  filterLoop mn mx rules

/-- Parsing step of merge_port_ranges (firewall_filters.py lines 190-199):
an int becomes the degenerate pair, a str with a dash is split as a range,
any other str must parse as a single int.  none models the uncaught
ValueError that aborts the whole filter. -/
def portTokToRange : PyVal → Option (Int × Int)
  | .int n => some (n, n)
  | .str s =>
    if '-' ∈ s.data then pyParseRange s
    else (pyInt s).map (fun p => (p, p))
  | .other => none

/-- The per-element loop of merge_port_ranges, propagating the first
exception. -/
def optMapM {α β : Type} (f : α → Option β) : List α → Option (List β)
  | [] => some []
  | a :: l =>
    match f a with
    | none => none
    | some b => (optMapM f l).map (fun bs => b :: bs)

/-- Python tuple comparison on (start, end) pairs, as used by list.sort. -/
def lexLe (a b : Int × Int) : Prop := a.1 < b.1 ∨ (a.1 = b.1 ∧ a.2 ≤ b.2)

instance : DecidableRel lexLe :=
  fun a b => inferInstanceAs (Decidable (a.1 < b.1 ∨ (a.1 = b.1 ∧ a.2 ≤ b.2)))

instance : IsTotal (Int × Int) lexLe :=
  ⟨by intro a b; unfold lexLe; omega⟩

instance : IsTrans (Int × Int) lexLe :=
  ⟨by intro a b c; unfold lexLe; omega⟩

/-- The sweep of merge_port_ranges (firewall_filters.py lines 205-211):
merged holds an accumulated last range; a current range folds into it when
current.start ≤ last.end + 1, else a new group starts. -/
def mergeSweep (last : Int × Int) : List (Int × Int) → List (Int × Int)
  | [] => [last]
  | c :: rest =>
    if c.1 ≤ last.2 + 1 then mergeSweep (last.1, max last.2 c.2) rest
    else last :: mergeSweep c rest

/-- Re-rendering step of merge_port_ranges (lines 214-219). -/
def renderRange (r : Int × Int) : String :=
  if r.1 = r.2 then renderInt r.1 else renderInt r.1 ++ "-" ++ renderInt r.2

/-- firewall_filters.py lines 184-221.  Python's stable list.sort on int
pairs is modelled by insertionSort under the lexicographic order; that
order is antisymmetric and total, so the sorted permutation is unique and
the choice of sorting algorithm cannot be observed. -/
def merge_port_ranges (ports : List PyVal) : Option (List String) :=
  if ports.isEmpty then some []
  else
    match optMapM portTokToRange ports with
    | none => none
    | some ranges =>
      match List.insertionSort lexLe ranges with
      | [] => some []
      | r :: rest => some ((mergeSweep r rest).map renderRange)

/-- Boolean coverage test: is port q inside some pair of the list. -/
def coversB (l : List (Int × Int)) (q : Int) : Bool :=
  l.any (fun r => decide (r.1 ≤ q) && decide (q ≤ r.2))

/-! ### plugins/lookup/firewall_ports.py -/

/-- SERVICE_PORTS['tcp'] (firewall_ports.py lines 54-78). -/
def SERVICE_PORTS_tcp : List (String × Int) :=
  [("ftp-data", 20), ("ftp", 21), ("ssh", 22), ("telnet", 23), ("smtp", 25),
   ("dns", 53), ("http", 80), ("pop3", 110), ("imap", 143), ("https", 443),
   ("smtps", 465), ("submission", 587), ("imaps", 993), ("pop3s", 995),
   ("mssql", 1433), ("mysql", 3306), ("rdp", 3389), ("postgresql", 5432),
   ("redis", 6379), ("http-alt", 8080), ("https-alt", 8443),
   ("elasticsearch", 9200), ("mongodb", 27017)]

/-- SERVICE_PORTS['udp'] (firewall_ports.py lines 79-88). -/
def SERVICE_PORTS_udp : List (String × Int) :=
  [("dns", 53), ("dhcp-server", 67), ("dhcp-client", 68), ("tftp", 69),
   ("ntp", 123), ("snmp", 161), ("snmp-trap", 162), ("syslog", 514)]

/-- SERVICE_PORTS keyed by (lowercased) protocol. -/
def servicePortsFor (protocol : String) : Option (List (String × Int)) :=
  if protocol = "tcp" then some SERVICE_PORTS_tcp
  else if protocol = "udp" then some SERVICE_PORTS_udp
  else none

/-- reverse_map.get(n): the dict comprehension inverts the table; its port
values are pairwise distinct, so first-match lookup is equivalent. -/
def reverseLookup (pm : List (String × Int)) (n : Int) : Option String :=
  (pm.find? (fun kv => kv.2 == n)).map (fun kv => kv.1)

/-- str(term).lower().strip() (firewall_ports.py line 105). -/
def normTerm (t : PyScalar) : String := pyStrip (asciiLower (scalarStr t))

/-- The per-term body of LookupModule.run (firewall_ports.py lines 104-119). -/
def translateTerm (pm : List (String × Int)) (t : PyScalar) : Except String PyScalar :=
  match lookupAssoc pm (normTerm t) with
  | some p => .ok (.int p)
  | none =>
    if pyIsdigit (normTerm t).data then
      match reverseLookup pm ((digitsToNat (normTerm t).data : Nat) : Int) with
      | some name => .ok (.str name)
      | none => .ok (.int ((digitsToNat (normTerm t).data : Nat) : Int))
    else .error ("Unknown service or invalid port: " ++ normTerm t)

/-- The results loop, stopping at the first raised AnsibleError. -/
def exceptMapM {ε α β : Type} (f : α → Except ε β) : List α → Except ε (List β)
  | [] => .ok []
  | a :: l =>
    match f a with
    | .error e => .error e
    | .ok b =>
      match exceptMapM f l with
      | .error e => .error e
      | .ok bs => .ok (b :: bs)

/-- firewall_ports.py lines 92-121 (LookupModule.run). -/
def lookup_run (terms : List PyScalar) (protocol : String) : Except String (List PyScalar) :=
  match servicePortsFor (asciiLower protocol) with
  | none => .error ("Invalid protocol: " ++ asciiLower protocol)
  | some pm => exceptMapM (translateTerm pm) terms

/-! ### plugins/modules/firewall_rule.py -/

/-- The module parameters (firewall_rule.py lines 309-324).  checkMode
models the externally injected Ansible check mode flag. -/
structure Params where
  name : String
  state : String
  port : Option String
  protocol : String
  source : Option String
  destination : Option String
  action : String
  direction : String
  zone : String
  checkMode : Bool
  deriving DecidableEq

/-- The rule dict built at lines 343-352. -/
structure Rule where
  name : String
  port : Option String
  protocol : String
  source : Option String
  destination : Option String
  action : String
  direction : String
  zone : String
  deriving DecidableEq

def ruleOfParams (p : Params) : Rule :=
  ⟨p.name, p.port, p.protocol, p.source, p.destination, p.action, p.direction, p.zone⟩

/-- One capability invocation on the resolved backend. -/
inductive BCall where
  | existsQuery
  | addCall
  | removeCall
  deriving DecidableEq

/-- The FirewallBackend capability contract (firewall_rule.py lines
161-181), over an abstract backend state.  add_rule yields none when the
backend calls fail_json (a fatal add failure); remove_rule reports its
success as the Bool of the pair. -/
structure Backend (σ : Type) where
  rule_exists : Rule → σ → Bool
  add_rule : Rule → σ → Option σ
  remove_rule : Rule → σ → Bool × σ

/-- The structured module exit payload (changed / backend / message). -/
structure Outcome where
  changed : Bool
  backend : String
  message : String
  deriving DecidableEq

/-- Result of one reconciliation: a normal exit or a fail_json message,
the final backend state, and the capability calls made, in order. -/
structure RunResult (σ : Type) where
  result : Except String Outcome
  state : σ
  calls : List BCall

/-- not module.params.get('port') (line 327): port missing or empty. -/
def portMissing (p : Params) : Prop := p.port = none ∨ p.port = some ""

instance : DecidablePred portMissing :=
  fun p => inferInstanceAs (Decidable (p.port = none ∨ p.port = some ""))

/-- The choices validation AnsibleModule performs on state, protocol,
action and direction before main's own code runs. -/
def choicesOk (p : Params) : Prop :=
  p.state ∈ ["present", "absent", "enabled", "disabled"] ∧
  p.protocol ∈ ["tcp", "udp", "icmp", "any"] ∧
  p.action ∈ ["accept", "drop", "reject"] ∧
  p.direction ∈ ["inbound", "outbound", "both"]

instance : DecidablePred choicesOk :=
  fun p => inferInstanceAs (Decidable (_ ∧ _ ∧ _ ∧ _))

/-- firewall_rule.py main (lines 308-381), after backend resolution: the
chosen backend and its name are passed in (detection, lines 330-341, is
outside the claims' scope).  The leading choicesOk guard models
AnsibleModule's parameter validation, which runs before the port check.
The check-mode exit (line 357-358) reports changed unconditionally and
makes no backend call; its exit payload has no message field, modelled as
the empty message.  Message strings keep the source wording with the
surrounding quotes around the rule name elided. -/
def firewall_rule_main {σ : Type} (B : Backend σ) (backendName : String)
    (p : Params) (s : σ) : RunResult σ :=
  if ¬ choicesOk p then
    ⟨.error "value of parameter must be one of the permitted choices", s, []⟩
  else if (p.state = "present" ∨ p.state = "enabled") ∧ portMissing p then
    ⟨.error "port is required when state is present or enabled", s, []⟩
  else if p.checkMode then ⟨.ok ⟨true, backendName, ""⟩, s, []⟩
  else if p.state = "present" ∨ p.state = "enabled" then
    if B.rule_exists (ruleOfParams p) s then
      ⟨.ok ⟨false, backendName, "Firewall rule " ++ p.name ++ " already exists"⟩,
        s, [.existsQuery]⟩
    else
      match B.add_rule (ruleOfParams p) s with
      | none => ⟨.error "Failed to add rule", s, [.existsQuery, .addCall]⟩
      | some s' =>
        ⟨.ok ⟨true, backendName, "Firewall rule " ++ p.name ++ " created successfully"⟩,
          s', [.existsQuery, .addCall]⟩
  else
    -- state is absent or disabled here, by the choices guard
    if B.rule_exists (ruleOfParams p) s then
      ⟨.ok ⟨true, backendName, "Firewall rule " ++ p.name ++ " removed successfully"⟩,
        (B.remove_rule (ruleOfParams p) s).2, [.existsQuery, .removeCall]⟩
    else
      ⟨.ok ⟨false, backendName, "Firewall rule " ++ p.name ++ " does not exist"⟩,
        s, [.existsQuery]⟩

/-! ### A concrete firewalld backend model for witnesses -/

/-- Modelled from the spec: the permanent configuration of the external
firewall-cmd tool (its port entries per zone), which the repository only
manipulates through shell commands.  The spec (section 4.3) documents
add-port as installing the port, remove-port as uninstalling it, and
list-ports as printing the zone's entries. -/
structure FirewalldState where
  zonePorts : List (String × List String)
  deriving DecidableEq

def joinSpaces : List String → String
  | [] => ""
  | [x] => x
  | x :: y :: rest => x ++ " " ++ joinSpaces (y :: rest)

/-- The f-string port/protocol key; a missing port renders as None, as the
Python f-string would. -/
def portProtoKey (rule : Rule) : String :=
  (match rule.port with
   | some s => s
   | none => "None") ++ "/" ++ rule.protocol

/-- Modelled from the spec: stdout of firewall-cmd --list-ports for a
zone, a space separated list of port/protocol entries. -/
def fwListPorts (st : FirewalldState) (zone : String) : String :=
  joinSpaces ((lookupAssoc st.zonePorts zone).getD [])

/-- FirewalldBackend.rule_exists (firewall_rule.py lines 230-245):
substring match of port/protocol against the zone's port listing. -/
def firewalld_rule_exists (rule : Rule) (st : FirewalldState) : Bool :=
  strContains (fwListPorts st rule.zone) (portProtoKey rule)

def addZoneEntry : List (String × List String) → String → String → List (String × List String)
  | [], z, e => [(z, [e])]
  | (z', ps) :: rest, z, e =>
    if z' == z then (z', ps ++ [e]) :: rest else (z', ps) :: addZoneEntry rest z e

/-- FirewalldBackend.add_rule (lines 191-209) with the external add-port
semantics modelled from the spec: the entry is appended to the zone. -/
def firewalld_add_rule (rule : Rule) (st : FirewalldState) : Option FirewalldState :=
  some ⟨addZoneEntry st.zonePorts rule.zone (portProtoKey rule)⟩

/-- FirewalldBackend.remove_rule (lines 211-228) with the external
remove-port semantics modelled from the spec: the entry is dropped and the
command reports success. -/
def firewalld_remove_rule (rule : Rule) (st : FirewalldState) : Bool × FirewalldState :=
  (true, ⟨st.zonePorts.map (fun zp =>
    if zp.1 == rule.zone then (zp.1, zp.2.filter (fun e => e != portProtoKey rule)) else zp)⟩)

def firewalldBackend : Backend FirewalldState :=
  ⟨firewalld_rule_exists, firewalld_add_rule, firewalld_remove_rule⟩

/-! ### Concrete inputs used by counterexamples and witnesses -/

/-- A backend whose rule always exists and whose removal always reports
failure, exercising the remove-failure path of main. -/
def remFailBackend : Backend Unit :=
  ⟨fun _ _ => true, fun _ s => some s, fun _ s => (false, s)⟩

/-- A backend with no rules, always succeeding. -/
def trivBackend : Backend Unit :=
  ⟨fun _ _ => false, fun _ s => some s, fun _ s => (true, s)⟩

def pAbsent : Params :=
  ⟨"old", "absent", some "80", "tcp", none, none, "accept", "inbound", "public", false⟩

def pDisabled : Params :=
  ⟨"old", "disabled", some "80", "tcp", none, none, "accept", "inbound", "public", false⟩

def pIcmpNoPort : Params :=
  ⟨"ping", "present", none, "icmp", none, none, "accept", "inbound", "public", false⟩

def pTcpNoPort : Params :=
  ⟨"web", "enabled", none, "tcp", none, none, "accept", "inbound", "public", false⟩

def pPresent : Params :=
  ⟨"web", "present", some "80", "tcp", none, none, "accept", "inbound", "public", false⟩

def fwEmpty : FirewalldState := ⟨[]⟩

def fwAfterAdd : FirewalldState := ⟨[("public", ["80/tcp"])]⟩

/-- A rule with a valid port, for the C10 witness. -/
def rGood : PRule := ⟨"a", some (.str "80")⟩

/-- A rule with an unparseable port, for the C10 witness. -/
def rBad : PRule := ⟨"b", some (.str "x-y")⟩

/-- A rule whose port is a truthy non-int, non-str object (such as the
list [80, 443]), on which int() raises an uncaught TypeError. -/
def rOther : PRule := ⟨"c", some .other⟩

/-- Per-entry check that the port_to_service table round-trips through
service_to_port, except at the ftp-data entry. -/
def roundtripCheck (kv : (String × String) × String) : Bool :=
  kv.2 == "ftp-data" ||
    (match service_to_port kv.2 with
     | some n => renderInt n == kv.1.1
     | none => false)

/-! ### Helper lemmas -/

theorem splitOnCharAux_of_not_mem (c : Char) {l : List Char} (acc : List Char) (h : c ∉ l) :
    splitOnCharAux c l acc = [acc.reverse ++ l] := by
  induction l generalizing acc with
  | nil => simp [splitOnCharAux]
  | cons x xs ih =>
    rw [List.mem_cons, not_or] at h
    rw [splitOnCharAux, if_neg (fun hx => h.1 hx.symm), ih _ h.2]
    simp

theorem splitOnCharAux_sandwich (c : Char) {s : List Char} (t acc : List Char) (h : c ∉ s) :
    splitOnCharAux c (s ++ c :: t) acc = (acc.reverse ++ s) :: splitOnChar c t := by
  induction s generalizing acc with
  | nil => simp [splitOnCharAux, splitOnChar]
  | cons x xs ih =>
    rw [List.mem_cons, not_or] at h
    rw [List.cons_append, splitOnCharAux, if_neg (fun hx => h.1 hx.symm), ih _ h.2]
    simp

theorem splitOnChar_sandwich (c : Char) {s t : List Char} (hs : c ∉ s) :
    splitOnChar c (s ++ c :: t) = s :: splitOnChar c t := by
  rw [show splitOnChar c (s ++ c :: t) = splitOnCharAux c (s ++ c :: t) [] from rfl,
    splitOnCharAux_sandwich c t [] hs]
  simp

theorem pyParseRange_sandwich {s t : List Char} {a b : Int} (hs : '-' ∉ s) (ht : '-' ∉ t)
    (ha : pyIntChars s = some a) (hb : pyIntChars t = some b) :
    pyParseRange ⟨s ++ '-' :: t⟩ = some (a, b) := by
  unfold pyParseRange
  have h1 : splitOnChar '-' (String.data ⟨s ++ '-' :: t⟩) = [s, t] := by
    show splitOnChar '-' (s ++ '-' :: t) = [s, t]
    rw [splitOnChar_sandwich _ hs]
    rw [show splitOnChar '-' t = splitOnCharAux '-' t [] from rfl,
      splitOnCharAux_of_not_mem _ _ ht]
    simp
  rw [h1]
  simp [ha, hb]

theorem lookupAssoc_mem {α β : Type} [BEq α] [LawfulBEq α] {l : List (α × β)} {k : α} {v : β}
    (h : lookupAssoc l k = some v) : (k, v) ∈ l := by
  unfold lookupAssoc at h
  rcases ho : l.find? (fun kv => kv.1 == k) with _ | kv
  · rw [ho] at h; cases h
  · rw [ho] at h
    simp only [Option.map_some', Option.some.injEq] at h
    have hm := List.mem_of_find?_eq_some ho
    have hk : kv.1 = k := by simpa using List.find?_some ho
    obtain ⟨k', v'⟩ := kv
    simp only at hk h
    subst hk
    subst h
    exact hm

theorem optMapM_length {α β : Type} {f : α → Option β} :
    ∀ {l : List α} {res : List β}, optMapM f l = some res → res.length = l.length := by
  intro l
  induction l with
  | nil =>
    intro res h
    simp only [optMapM, Option.some.injEq] at h
    simp [← h]
  | cons a l ih =>
    intro res h
    unfold optMapM at h
    rcases hf : f a with _ | b <;> rw [hf] at h
    · cases h
    · rcases hl : optMapM f l with _ | bs <;> rw [hl] at h
      · cases h
      · simp only [Option.map_some', Option.some.injEq] at h
        rw [← h]
        simp [ih hl]

theorem exceptMapM_ok {ε α β : Type} {f : α → Except ε β} :
    ∀ {l : List α} {res : List β}, exceptMapM f l = .ok res →
      res.length = l.length ∧
      ∀ (i : Nat) (h1 : i < l.length) (h2 : i < res.length),
        f (l.get ⟨i, h1⟩) = .ok (res.get ⟨i, h2⟩) := by
  intro l
  induction l with
  | nil =>
    intro res h
    simp only [exceptMapM, Except.ok.injEq] at h
    refine ⟨by simp [← h], ?_⟩
    intro i h1 h2
    exact absurd h1 (Nat.not_lt_zero i)
  | cons a l ih =>
    intro res h
    unfold exceptMapM at h
    rcases hf : f a with e | b <;> rw [hf] at h
    · cases h
    · rcases hl : exceptMapM f l with e | bs <;> rw [hl] at h
      · cases h
      · injection h with h
        obtain ⟨hlen, hpt⟩ := ih hl
        subst h
        refine ⟨by simp [hlen], ?_⟩
        intro i h1 h2
        cases i with
        | zero => simpa using hf
        | succ j =>
          have h1' : j < l.length := by
            simp only [List.length_cons] at h1
            omega
          have h2' : j < bs.length := by
            simp only [List.length_cons] at h2
            omega
          exact hpt j h1' h2'

theorem exceptMapM_error_of_mem {ε α β : Type} {f : α → Except ε β} {l : List α} {a : α}
    (ha : a ∈ l) (hf : ∀ r, f a ≠ .ok r) : ∃ e, exceptMapM f l = .error e := by
  induction l with
  | nil => cases ha
  | cons b l ih =>
    rcases List.mem_cons.mp ha with rfl | ha'
    · rcases hfa : f a with e | r
      · exact ⟨e, by unfold exceptMapM; rw [hfa]⟩
      · exact absurd hfa (hf r)
    · rcases hfb : f b with e | r
      · exact ⟨e, by unfold exceptMapM; rw [hfb]⟩
      · obtain ⟨e, he⟩ := ih ha'
        exact ⟨e, by unfold exceptMapM; rw [hfb, he]⟩

theorem mergeSweep_head : ∀ (l : List (Int × Int)) (last : Int × Int),
    ∃ e tl, mergeSweep last l = (last.1, e) :: tl ∧ last.2 ≤ e := by
  intro l
  induction l with
  | nil =>
    intro last
    exact ⟨last.2, [], by simp [mergeSweep], le_refl _⟩
  | cons c rest ih =>
    intro last
    by_cases h : c.1 ≤ last.2 + 1
    · obtain ⟨e, tl, heq, hle⟩ := ih (last.1, max last.2 c.2)
      refine ⟨e, tl, ?_, le_trans (le_max_left _ _) hle⟩
      rw [show mergeSweep last (c :: rest) = mergeSweep (last.1, max last.2 c.2) rest from
        by simp [mergeSweep, h]]
      exact heq
    · exact ⟨last.2, mergeSweep c rest, by simp [mergeSweep, h], le_refl _⟩

theorem mergeSweep_gapped : ∀ (l : List (Int × Int)) (last : Int × Int),
    List.Chain' (fun a b : Int × Int => a.2 + 2 ≤ b.1) (mergeSweep last l) := by
  intro l
  induction l with
  | nil => intro last; simp [mergeSweep]
  | cons c rest ih =>
    intro last
    by_cases h : c.1 ≤ last.2 + 1
    · rw [show mergeSweep last (c :: rest) = mergeSweep (last.1, max last.2 c.2) rest from
        by simp [mergeSweep, h]]
      exact ih (last.1, max last.2 c.2)
    · obtain ⟨e, tl, heq, _⟩ := mergeSweep_head rest c
      have hch := ih c
      rw [show mergeSweep last (c :: rest) = last :: mergeSweep c rest from
        by simp [mergeSweep, h], heq]
      rw [heq] at hch
      rw [List.chain'_cons]
      refine ⟨?_, hch⟩
      simp only
      omega

theorem mergeSweep_wf : ∀ (l : List (Int × Int)) (last : Int × Int),
    last.1 ≤ last.2 → (∀ x ∈ l, x.1 ≤ x.2) →
    ∀ x ∈ mergeSweep last l, x.1 ≤ x.2 := by
  intro l
  induction l with
  | nil =>
    intro last hl _ x hx
    simp only [mergeSweep, List.mem_singleton] at hx
    rw [hx]
    exact hl
  | cons c rest ih =>
    intro last hl hall x hx
    by_cases h : c.1 ≤ last.2 + 1
    · rw [show mergeSweep last (c :: rest) = mergeSweep (last.1, max last.2 c.2) rest from
        by simp [mergeSweep, h]] at hx
      refine ih (last.1, max last.2 c.2) ?_ ?_ x hx
      · exact le_trans hl (le_max_left _ _)
      · intro y hy; exact hall y (List.mem_cons_of_mem _ hy)
    · rw [show mergeSweep last (c :: rest) = last :: mergeSweep c rest from
        by simp [mergeSweep, h]] at hx
      rcases List.mem_cons.mp hx with rfl | hx'
      · exact hl
      · exact ih c (hall c (List.mem_cons_self _ _))
          (fun y hy => hall y (List.mem_cons_of_mem _ hy)) x hx'

theorem chain'_lt_of_gapped : ∀ (l : List (Int × Int)),
    List.Chain' (fun a b : Int × Int => a.2 + 2 ≤ b.1) l →
    (∀ x ∈ l, x.1 ≤ x.2) →
    List.Chain' (fun a b : Int × Int => a.1 < b.1) l := by
  intro l
  induction l with
  | nil => intro _ _; simp
  | cons a tl ih =>
    intro hch hwf
    cases tl with
    | nil => simp
    | cons b tl2 =>
      rw [List.chain'_cons] at hch ⊢
      refine ⟨?_, ih hch.2 (fun x hx => hwf x (List.mem_cons_of_mem _ hx))⟩
      have ha := hwf a (List.mem_cons_self _ _)
      have := hch.1
      omega

theorem mergeSweep_covers : ∀ (l : List (Int × Int)) (last : Int × Int),
    List.Chain (fun a b : Int × Int => a.1 ≤ b.1) last l →
    ∀ q : Int, coversB (mergeSweep last l) q =
      ((decide (last.1 ≤ q) && decide (q ≤ last.2)) || coversB l q) := by
  intro l
  induction l with
  | nil => intro last _ q; simp [mergeSweep, coversB]
  | cons c rest ih =>
    intro last hch q
    rw [List.chain_cons] at hch
    obtain ⟨hlc, hcrest⟩ := hch
    by_cases h : c.1 ≤ last.2 + 1
    · have hch' : List.Chain (fun a b : Int × Int => a.1 ≤ b.1) (last.1, max last.2 c.2) rest := by
        cases rest with
        | nil => exact List.Chain.nil
        | cons d rd =>
          rw [List.chain_cons] at hcrest ⊢
          exact ⟨le_trans hlc hcrest.1, hcrest.2⟩
      rw [show mergeSweep last (c :: rest) = mergeSweep (last.1, max last.2 c.2) rest from
        by simp [mergeSweep, h], ih _ hch' q]
      have hc2 : coversB (c :: rest) q =
          ((decide (c.1 ≤ q) && decide (q ≤ c.2)) || coversB rest q) := by
        simp [coversB]
      rw [hc2]
      dsimp only
      have key : (decide (last.1 ≤ q) && decide (q ≤ max last.2 c.2)) =
          ((decide (last.1 ≤ q) && decide (q ≤ last.2)) ||
           (decide (c.1 ≤ q) && decide (q ≤ c.2))) := by
        rw [← Bool.decide_and, ← Bool.decide_and, ← Bool.decide_and, ← Bool.decide_or]
        apply decide_eq_decide.mpr
        rcases le_total last.2 c.2 with hm | hm
        · rw [max_eq_right hm]
          constructor
          · intro hq; omega
          · intro hq; omega
        · rw [max_eq_left hm]
          constructor
          · intro hq; omega
          · intro hq; omega
      rw [key, Bool.or_assoc]
    · rw [show mergeSweep last (c :: rest) = last :: mergeSweep c rest from
        by simp [mergeSweep, h]]
      have h1 : coversB (last :: mergeSweep c rest) q =
          ((decide (last.1 ≤ q) && decide (q ≤ last.2)) || coversB (mergeSweep c rest) q) := by
        simp [coversB]
      rw [h1, ih c hcrest q]
      have hc2 : coversB (c :: rest) q =
          ((decide (c.1 ≤ q) && decide (q ≤ c.2)) || coversB rest q) := by
        simp [coversB]
      rw [hc2]

theorem coversB_eq_of_perm {l1 l2 : List (Int × Int)} (h : List.Perm l1 l2) (q : Int) :
    coversB l1 q = coversB l2 q := by
  have hb : ∀ b1 b2 : Bool, (b1 = true ↔ b2 = true) → b1 = b2 := by
    intro b1 b2 hh; cases b1 <;> cases b2 <;> simp_all
  apply hb
  simp only [coversB, List.any_eq_true]
  constructor
  · rintro ⟨x, hx, hp⟩; exact ⟨x, h.mem_iff.mp hx, hp⟩
  · rintro ⟨x, hx, hp⟩; exact ⟨x, h.mem_iff.mpr hx, hp⟩

/-! ### Claim theorems -/

/-- C4: mergePortRanges sorts the parsed pairs ascending and sweeps,
merging into the running last range exactly when the current start is at
most the last end plus one, so adjacent ranges merge:
merge of 80, 81-82, 100 gives 80-82 and 100, and merge of 22, 22, 22
collapses to the single 22. -/
theorem c4_merge_port_ranges_examples :
    merge_port_ranges [.str "80", .str "81-82", .str "100"] = some ["80-82", "100"] ∧
    merge_port_ranges [.int 22, .int 22, .int 22] = some ["22"] := by
  constructor <;> rfl

/-- C5: validate_port accepts an integer exactly when it lies in 1..65535;
it accepts a dash range exactly when 1 ≤ start ≤ end ≤ 65535 (so reversed
ranges are rejected); and every parse failure returns false instead of
raising. -/
theorem c5_validate_port :
    (∀ n : Int, validate_port (.int n) = (decide (1 ≤ n) && decide (n ≤ 65535))) ∧
    (∀ (s t : List Char) (a b : Int), '-' ∉ s → '-' ∉ t →
      pyIntChars s = some a → pyIntChars t = some b →
      validate_port (.str ⟨s ++ '-' :: t⟩) =
        (decide (1 ≤ a) && decide (a ≤ b) && decide (b ≤ 65535))) ∧
    (∀ s : String, '-' ∈ s.data → pyParseRange s = none → validate_port (.str s) = false) ∧
    (∀ s : String, '-' ∉ s.data → pyInt s = none → validate_port (.str s) = false) := by
  refine ⟨fun n => rfl, ?_, ?_, ?_⟩
  · intro s t a b hs ht ha hb
    have hmem : '-' ∈ (String.data ⟨s ++ '-' :: t⟩) := by
      show '-' ∈ s ++ '-' :: t
      exact List.mem_append.mpr (Or.inr (List.mem_cons_self _ _))
    simp only [validate_port]
    rw [if_pos hmem, pyParseRange_sandwich hs ht ha hb]
  · intro s hd hpr
    simp only [validate_port]
    rw [if_pos hd, hpr]
  · intro s hd hpi
    simp only [validate_port]
    rw [if_neg hd, hpi]

/-- Witness for C5 at concrete inputs. -/
theorem c5_validate_port_witness :
    validate_port (.str "80-90") = true ∧ validate_port (.str "90-80") = false ∧
    validate_port (.int 70000) = false ∧ validate_port (.str "abc") = false := by
  refine ⟨?_, ?_, ?_, ?_⟩
  · exact (c5_validate_port.2.1 ['8', '0'] ['9', '0'] 80 90 (by decide) (by decide)
      (by decide) (by decide)).trans (by decide)
  · exact (c5_validate_port.2.1 ['9', '0'] ['8', '0'] 90 80 (by decide) (by decide)
      (by decide) (by decide)).trans (by decide)
  · exact (c5_validate_port.1 70000).trans (by decide)
  · exact c5_validate_port.2.2.2 "abc" (by decide) (by decide)

/-- C8: normalize_port_range canonicalizes an int port to its decimal
string and a string port or range to the canonical port or start-end
decimal form; every non-numeric, non-range input is rejected with a raised
error (an uncaught ValueError for unparseable strings, the explicit
AnsibleFilterError for non-int, non-str values). -/
theorem c8_normalize_port_range :
    (∀ n : Int, normalize_port_range (.int n) = .ok (renderInt n)) ∧
    (∀ (s : String) (a b : Int), '-' ∈ (pyStrip s).data →
      pyParseRange (pyStrip s) = some (a, b) →
      normalize_port_range (.str s) = .ok (renderInt a ++ "-" ++ renderInt b)) ∧
    (∀ (s : String) (n : Int), '-' ∉ (pyStrip s).data → pyInt (pyStrip s) = some n →
      normalize_port_range (.str s) = .ok (renderInt n)) ∧
    (∀ s : String, '-' ∈ (pyStrip s).data → pyParseRange (pyStrip s) = none →
      normalize_port_range (.str s) = .error .valueError) ∧
    (∀ s : String, '-' ∉ (pyStrip s).data → pyInt (pyStrip s) = none →
      normalize_port_range (.str s) = .error .valueError) ∧
    normalize_port_range .other = .error (.filterError "Invalid port format") := by
  refine ⟨fun n => rfl, ?_, ?_, ?_, ?_, rfl⟩
  · intro s a b hd hp
    simp only [normalize_port_range]
    rw [if_pos hd, hp]
  · intro s n hd hp
    simp only [normalize_port_range]
    rw [if_neg hd, hp]
  · intro s hd hp
    simp only [normalize_port_range]
    rw [if_pos hd, hp]
  · intro s hd hp
    simp only [normalize_port_range]
    rw [if_neg hd, hp]

/-- Witness for C8 at concrete inputs. -/
theorem c8_normalize_port_range_witness :
    normalize_port_range (.str " 8080-8090 ") = .ok "8080-8090" ∧
    normalize_port_range (.int 80) = .ok "80" ∧
    normalize_port_range (.str "abc") = .error .valueError := by
  refine ⟨?_, ?_, ?_⟩
  · exact (c8_normalize_port_range.2.1 " 8080-8090 " 8080 8090 (by decide) (by decide)).trans rfl
  · exact c8_normalize_port_range.1 80
  · exact c8_normalize_port_range.2.2.2.2.1 "abc" (by decide) (by decide)

/-- C6 counterexample: port_to_service maps (20, tcp) to ftp-data, but
service_to_port has no ftp-data entry and returns none rather than port
20, so the tables are not a bidirectional pair on that entry. -/
theorem c6_counterexample :
    port_to_service (.int 20) "tcp" = some "ftp-data" ∧
    service_to_port "ftp-data" = none := by
  constructor <;> rfl

/-- C6 amended: for every (port, protocol) pair on which port_to_service
returns a service name other than ftp-data, service_to_port returns the
same port; service_to_port has no entry for ftp-data; and unknown inputs
to either function return none rather than raising. -/
theorem c6_amended :
    (∀ (p : PyVal) (proto : String) (s : String),
      port_to_service p proto = some s → s ≠ "ftp-data" →
      ∃ n : Int, service_to_port s = some n ∧ renderInt n = pyStr p) ∧
    port_to_service (.int 443) "udp" = none ∧
    service_to_port "ftp-data" = none ∧
    service_to_port "nosuchservice" = none := by
  refine ⟨?_, rfl, rfl, rfl⟩
  intro p proto s h hs
  have hmem : ((pyStr p, asciiLower proto), s) ∈ portServiceTable := lookupAssoc_mem h
  have hall : portServiceTable.all roundtripCheck = true := by decide
  have hc := List.all_eq_true.mp hall _ hmem
  unfold roundtripCheck at hc
  rw [Bool.or_eq_true] at hc
  rcases hc with hc | hc
  · exact absurd (by simpa using hc) hs
  · rcases he : service_to_port s with _ | n <;> rw [he] at hc
    · cases hc
    · refine ⟨n, rfl, ?_⟩
      simpa using hc

/-- Witness for C6 amended at the https entry. -/
theorem c6_amended_witness :
    ∃ n : Int, service_to_port "https" = some n ∧ renderInt n = pyStr (.int 443) :=
  c6_amended.1 (.int 443) "tcp" "https" rfl (by decide)

theorem ruleFilterStep_none (mn mx : Int) (r : PRule)
    (h : ruleFilterStep mn mx r = none) : r.port = some PyVal.other := by
  unfold ruleFilterStep at h
  rcases hp : r.port with _ | v <;> rw [hp] at h
  · cases h
  · cases v with
    | int n =>
      by_cases h0 : n = 0 <;> simp [h0] at h
    | str s =>
      by_cases he : s.data.isEmpty <;> by_cases hd : '-' ∈ s.data <;>
        rcases hpr : pyParseRange s with _ | ab <;> rcases hpi : pyInt s with _ | n <;>
          simp [he, hd, hpr, hpi] at h
    | other => rfl

theorem ruleFilterStep_skip (mn mx : Int) (r : PRule)
    (h : r.port = none ∨ r.port = some (.str "") ∨ r.port = some (.int 0) ∨
      (∃ s : String, r.port = some (.str s) ∧
        (('-' ∈ s.data ∧ pyParseRange s = none) ∨ ('-' ∉ s.data ∧ pyInt s = none)))) :
    ruleFilterStep mn mx r = some false := by
  rcases h with h | h | h | ⟨s, hs, hcase⟩
  · simp [ruleFilterStep, h]
  · simp [ruleFilterStep, h]
  · simp [ruleFilterStep, h]
  · rcases hcase with ⟨hd, hpr⟩ | ⟨hd, hpi⟩ <;>
      by_cases he : s.data.isEmpty
    · simp [ruleFilterStep, hs, he]
    · simp [ruleFilterStep, hs, he, hd, hpr]
    · simp [ruleFilterStep, hs, he]
    · simp [ruleFilterStep, hs, he, hd, hpi]

theorem filterLoop_sublist (mn mx : Int) :
    ∀ {rules res : List PRule}, filterLoop mn mx rules = some res →
      List.Sublist res rules := by
  intro rules
  induction rules with
  | nil =>
    intro res h
    simp only [filterLoop, Option.some.injEq] at h
    rw [← h]
  | cons r rest ih =>
    intro res h
    unfold filterLoop at h
    rcases hstep : ruleFilterStep mn mx r with _ | b <;> rw [hstep] at h
    · cases h
    · cases b
      · exact List.Sublist.cons r (ih h)
      · rcases hl : filterLoop mn mx rest with _ | res' <;> rw [hl] at h
        · cases h
        · simp only [Option.map_some', Option.some.injEq] at h
          rw [← h]
          exact List.Sublist.cons₂ r (ih hl)

theorem filterLoop_mem (mn mx : Int) :
    ∀ {rules res : List PRule}, filterLoop mn mx rules = some res →
      ∀ r ∈ res, ruleFilterStep mn mx r = some true := by
  intro rules
  induction rules with
  | nil =>
    intro res h
    simp only [filterLoop, Option.some.injEq] at h
    rw [← h]
    intro r hr
    cases hr
  | cons a rest ih =>
    intro res h
    unfold filterLoop at h
    rcases hstep : ruleFilterStep mn mx a with _ | b <;> rw [hstep] at h
    · cases h
    · cases b
      · exact ih h
      · rcases hl : filterLoop mn mx rest with _ | res' <;> rw [hl] at h
        · cases h
        · simp only [Option.map_some', Option.some.injEq] at h
          rw [← h]
          intro r hr
          rcases List.mem_cons.mp hr with rfl | hr'
          · exact hstep
          · exact ih hl r hr'

theorem filterLoop_isSome (mn mx : Int) :
    ∀ (rules : List PRule), (∀ r ∈ rules, r.port ≠ some PyVal.other) →
      ∃ res, filterLoop mn mx rules = some res := by
  intro rules
  induction rules with
  | nil => intro _; exact ⟨[], rfl⟩
  | cons r rest ih =>
    intro hno
    obtain ⟨res', hres'⟩ := ih (fun x hx => hno x (List.mem_cons_of_mem _ hx))
    rcases hstep : ruleFilterStep mn mx r with _ | b
    · exact absurd (ruleFilterStep_none mn mx r hstep) (hno r (List.mem_cons_self _ _))
    · cases b
      · exact ⟨res', by unfold filterLoop; rw [hstep, hres']⟩
      · exact ⟨r :: res', by unfold filterLoop; rw [hstep, hres']; rfl⟩

theorem filterLoop_none_of_other (mn mx : Int) :
    ∀ (rules : List PRule) (r : PRule), r ∈ rules → r.port = some PyVal.other →
      filterLoop mn mx rules = none := by
  intro rules
  induction rules with
  | nil => intro r hr; cases hr
  | cons a rest ih =>
    intro r hr ho
    rcases List.mem_cons.mp hr with rfl | hr'
    · unfold filterLoop
      rw [show ruleFilterStep mn mx r = none from by unfold ruleFilterStep; rw [ho]]
    · unfold filterLoop
      rcases hstep : ruleFilterStep mn mx a with _ | b
      · rfl
      · cases b
        · rw [ih r hr' ho]
        · rw [ih r hr' ho]
          rfl

/-- C10 counterexample: a rule whose port is a truthy non-int, non-str
object (a non-empty list, say) reaches int(port), which raises a
TypeError the except clause does not catch: the call aborts instead of
silently excluding the rule, refuting never-raises-for-any-input. -/
theorem c10_counterexample :
    filter_rules_by_port_range [rOther] 1 100 = none ∧
    filter_rules_by_port_range [rOther] 1 100 ≠ some [] := by
  constructor
  · rfl
  · decide

/-- C10 amended: on every rule list whose port fields are ints, strings or
missing, filter_rules_by_port_range never raises: it returns a result in
which a rule whose port is missing, empty, falsy or unparseable is
silently excluded, and which is a sublist of the input in original
relative order.  A rule whose port is a truthy non-int, non-str object
instead aborts the whole call with an uncaught TypeError from int(). -/
theorem c10_amended :
    (∀ (rules : List PRule) (mn mx : Int),
      (∀ r ∈ rules, r.port ≠ some PyVal.other) →
      ∃ res : List PRule,
        filter_rules_by_port_range rules mn mx = some res ∧
        List.Sublist res rules ∧
        ∀ r ∈ rules,
          (r.port = none ∨ r.port = some (.str "") ∨ r.port = some (.int 0) ∨
            (∃ s : String, r.port = some (.str s) ∧
              (('-' ∈ s.data ∧ pyParseRange s = none) ∨ ('-' ∉ s.data ∧ pyInt s = none)))) →
          r ∉ res) ∧
    (∀ (rules : List PRule) (mn mx : Int) (r : PRule),
      r ∈ rules → r.port = some PyVal.other →
      filter_rules_by_port_range rules mn mx = none) := by
  constructor
  · intro rules mn mx hno
    obtain ⟨res, hres⟩ := filterLoop_isSome mn mx rules hno
    refine ⟨res, hres, filterLoop_sublist mn mx hres, ?_⟩
    intro r hr hbad hmem
    have ht := filterLoop_mem mn mx hres r hmem
    rw [ruleFilterStep_skip mn mx r hbad] at ht
    cases ht
  · intro rules mn mx r hr ho
    exact filterLoop_none_of_other mn mx rules r hr ho

/-- Witness for C10 amended: a scalar-port list filters without raising
and excludes the unparseable rule; adding a non-scalar port aborts. -/
theorem c10_amended_witness :
    (∃ res : List PRule,
      filter_rules_by_port_range [rGood, rBad] 1 100 = some res ∧
      List.Sublist res [rGood, rBad] ∧
      ∀ r ∈ [rGood, rBad],
        (r.port = none ∨ r.port = some (.str "") ∨ r.port = some (.int 0) ∨
          (∃ s : String, r.port = some (.str s) ∧
            (('-' ∈ s.data ∧ pyParseRange s = none) ∨ ('-' ∉ s.data ∧ pyInt s = none)))) →
        r ∉ res) ∧
    filter_rules_by_port_range [rGood, rOther] 1 100 = none :=
  ⟨c10_amended.1 [rGood, rBad] 1 100 (by decide),
   c10_amended.2 [rGood, rOther] 1 100 rOther (by decide) rfl⟩

/-- C7: the ports lookup validates the protocol (anything other than tcp
or udp after lowercasing is a fatal error), and on success returns one
result per input term where a known service name becomes its port number,
a digit term that is a known port becomes its service name, a digit term
with no known service stays its numeric value, and an unrecognized
non-digit term makes the whole lookup fail. -/
theorem c7_lookup_run :
    (∀ (protocol : String) (terms : List PyScalar),
      servicePortsFor (asciiLower protocol) = none →
      lookup_run terms protocol = .error ("Invalid protocol: " ++ asciiLower protocol)) ∧
    (∀ (protocol : String) (pm : List (String × Int)) (terms res : List PyScalar),
      servicePortsFor (asciiLower protocol) = some pm →
      lookup_run terms protocol = .ok res →
      res.length = terms.length ∧
      ∀ (i : Nat) (h1 : i < terms.length) (h2 : i < res.length),
        translateTerm pm (terms.get ⟨i, h1⟩) = .ok (res.get ⟨i, h2⟩)) ∧
    (∀ (pm : List (String × Int)) (t : PyScalar) (n : Int),
      lookupAssoc pm (normTerm t) = some n →
      translateTerm pm t = .ok (.int n)) ∧
    (∀ (pm : List (String × Int)) (t : PyScalar) (name : String),
      lookupAssoc pm (normTerm t) = none → pyIsdigit (normTerm t).data = true →
      reverseLookup pm ((digitsToNat (normTerm t).data : Nat) : Int) = some name →
      translateTerm pm t = .ok (.str name)) ∧
    (∀ (pm : List (String × Int)) (t : PyScalar),
      lookupAssoc pm (normTerm t) = none → pyIsdigit (normTerm t).data = true →
      reverseLookup pm ((digitsToNat (normTerm t).data : Nat) : Int) = none →
      translateTerm pm t = .ok (.int ((digitsToNat (normTerm t).data : Nat) : Int))) ∧
    (∀ (pm : List (String × Int)) (t : PyScalar),
      lookupAssoc pm (normTerm t) = none → pyIsdigit (normTerm t).data = false →
      translateTerm pm t = .error ("Unknown service or invalid port: " ++ normTerm t)) ∧
    (∀ (protocol : String) (pm : List (String × Int)) (terms : List PyScalar) (t : PyScalar),
      servicePortsFor (asciiLower protocol) = some pm → t ∈ terms →
      (∀ r, translateTerm pm t ≠ .ok r) →
      ∃ msg, lookup_run terms protocol = .error msg) := by
  refine ⟨?_, ?_, ?_, ?_, ?_, ?_, ?_⟩
  · intro protocol terms h
    unfold lookup_run
    rw [h]
  · intro protocol pm terms res h1 h2
    unfold lookup_run at h2
    rw [h1] at h2
    exact exceptMapM_ok h2
  · intro pm t n h
    unfold translateTerm
    rw [h]
  · intro pm t name h1 h2 h3
    unfold translateTerm
    rw [h1, if_pos h2, h3]
  · intro pm t h1 h2 h3
    unfold translateTerm
    rw [h1, if_pos h2, h3]
  · intro pm t h1 h2
    unfold translateTerm
    rw [h1, if_neg (by simp [h2])]
  · intro protocol pm terms t h1 ht hf
    unfold lookup_run
    rw [h1]
    exact exceptMapM_error_of_mem ht hf

/-- Witness for C7: an invalid protocol errors and a valid run preserves
length. -/
theorem c7_lookup_run_witness :
    lookup_run [PyScalar.str "http"] "sctp" = .error ("Invalid protocol: " ++ asciiLower "sctp") ∧
    ([PyScalar.int 80, .str "ssh", .int 12345] : List PyScalar).length =
      ([PyScalar.str "http", .str "22", .str "12345"] : List PyScalar).length :=
  ⟨c7_lookup_run.1 "sctp" [.str "http"] rfl,
   (c7_lookup_run.2.1 "tcp" SERVICE_PORTS_tcp [.str "http", .str "22", .str "12345"]
     [.int 80, .str "ssh", .int 12345] rfl rfl).1⟩

/-- C1 counterexample: with target state absent, the rule present, and
removeRule reporting failure, main still exits normally with changed set
to true, so the reported changed flag does not equal removeRule's
success. -/
theorem c1_counterexample :
    (remFailBackend.remove_rule (ruleOfParams pAbsent) ()).1 = false ∧
    firewall_rule_main remFailBackend "fw" pAbsent () =
      ⟨.ok ⟨true, "fw", "Firewall rule old removed successfully"⟩, (),
        [.existsQuery, .removeCall]⟩ := by
  constructor <;> rfl

/-- C1 amended: in a reconciliation with target state absent or disabled
where the rule currently exists, the engine calls removeRule and reports
changed as true regardless of whether removeRule succeeded; a failed
removal does not abort the reconciliation (the exit is a normal one). -/
theorem c1_amended {σ : Type} (B : Backend σ) (bname : String) (p : Params) (s : σ)
    (hchoices : choicesOk p)
    (hstate : p.state = "absent" ∨ p.state = "disabled")
    (hck : p.checkMode = false)
    (hex : B.rule_exists (ruleOfParams p) s = true) :
    firewall_rule_main B bname p s =
      ⟨.ok ⟨true, bname, "Firewall rule " ++ p.name ++ " removed successfully"⟩,
        (B.remove_rule (ruleOfParams p) s).2, [.existsQuery, .removeCall]⟩ := by
  have hne : ¬ (p.state = "present" ∨ p.state = "enabled") := by
    rcases hstate with h | h <;> rw [h] <;> decide
  unfold firewall_rule_main
  rw [if_neg (not_not_intro hchoices), if_neg (fun hc => hne hc.1), if_neg (by simp [hck]),
    if_neg hne, if_pos hex]

/-- Witness for C1 amended: the disabled state with a failing removal. -/
theorem c1_amended_witness :
    firewall_rule_main remFailBackend "fw" pDisabled () =
      ⟨.ok ⟨true, "fw", "Firewall rule old removed successfully"⟩, (),
        [.existsQuery, .removeCall]⟩ :=
  c1_amended remFailBackend "fw" pDisabled () (by decide) (Or.inr rfl) rfl rfl

/-- C2 counterexample: with protocol icmp, state present and no port, main
fails fast with the parameter error instead of proceeding, so the icmp/any
exemption claimed by the spec does not exist in the code. -/
theorem c2_counterexample :
    pIcmpNoPort.protocol = "icmp" ∧
    firewall_rule_main trivBackend "fw" pIcmpNoPort () =
      ⟨.error "port is required when state is present or enabled", (), []⟩ := by
  constructor <;> rfl

/-- C2 amended: whenever the target state is present or enabled and the
port is missing or empty, the engine fails fast with the parameter error
before any backend call, regardless of the protocol (including icmp and
any). -/
theorem c2_amended {σ : Type} (B : Backend σ) (bname : String) (p : Params) (s : σ)
    (hchoices : choicesOk p)
    (hstate : p.state = "present" ∨ p.state = "enabled")
    (hport : portMissing p) :
    firewall_rule_main B bname p s =
      ⟨.error "port is required when state is present or enabled", s, []⟩ := by
  unfold firewall_rule_main
  rw [if_neg (not_not_intro hchoices), if_pos ⟨hstate, hport⟩]

/-- Witness for C2 amended: tcp with a missing port also fails fast. -/
theorem c2_amended_witness :
    firewall_rule_main trivBackend "fw" pTcpNoPort () =
      ⟨.error "port is required when state is present or enabled", (), []⟩ :=
  c2_amended trivBackend "fw" pTcpNoPort () (by decide) (Or.inr rfl) (Or.inl rfl)

/-- C3: reconciliation with state present is idempotent: when the rule is
initially absent, the first run adds it and reports changed true; the
second run, against the state the first produced, reports changed false
and performs only the existence query (no addRule call, no mutation: its
final state is the one it was given). -/
theorem c3_idempotent {σ : Type} (B : Backend σ) (bname : String) (p : Params) (s s' : σ)
    (hchoices : choicesOk p)
    (hstate : p.state = "present")
    (hck : p.checkMode = false)
    (hport : ¬ portMissing p)
    (h1 : B.rule_exists (ruleOfParams p) s = false)
    (h2 : B.add_rule (ruleOfParams p) s = some s')
    (h3 : B.rule_exists (ruleOfParams p) s' = true) :
    firewall_rule_main B bname p s =
      ⟨.ok ⟨true, bname, "Firewall rule " ++ p.name ++ " created successfully"⟩, s',
        [.existsQuery, .addCall]⟩ ∧
    firewall_rule_main B bname p s' =
      ⟨.ok ⟨false, bname, "Firewall rule " ++ p.name ++ " already exists"⟩, s',
        [.existsQuery]⟩ := by
  have hpe : p.state = "present" ∨ p.state = "enabled" := Or.inl hstate
  have hne1 : ¬ ((p.state = "present" ∨ p.state = "enabled") ∧ portMissing p) :=
    fun hc => hport hc.2
  constructor
  · unfold firewall_rule_main
    rw [if_neg (not_not_intro hchoices), if_neg hne1, if_neg (by simp [hck]), if_pos hpe,
      if_neg (by simp [h1]), h2]
  · unfold firewall_rule_main
    rw [if_neg (not_not_intro hchoices), if_neg hne1, if_neg (by simp [hck]), if_pos hpe,
      if_pos h3]

/-- Witness for C3 on the firewalld backend model starting from an empty
zone configuration. -/
theorem c3_idempotent_witness :
    firewall_rule_main firewalldBackend "firewalld" pPresent fwEmpty =
      ⟨.ok ⟨true, "firewalld", "Firewall rule web created successfully"⟩, fwAfterAdd,
        [.existsQuery, .addCall]⟩ ∧
    firewall_rule_main firewalldBackend "firewalld" pPresent fwAfterAdd =
      ⟨.ok ⟨false, "firewalld", "Firewall rule web already exists"⟩, fwAfterAdd,
        [.existsQuery]⟩ :=
  c3_idempotent firewalldBackend "firewalld" pPresent fwEmpty fwAfterAdd (by decide) rfl rfl
    (by decide) rfl rfl rfl

/-- C9: for a non-empty list of valid ports and ranges (each token parses
and is well-formed, start at most end), merge_port_ranges renders a list
of pairs that is strictly ascending by start, whose consecutive ranges are
separated by a gap of at least two (end plus two at most the next start),
and which covers exactly the same set of port numbers as the parsed input;
the empty input yields the empty list. -/
theorem c9_merge_invariants :
    merge_port_ranges [] = some [] ∧
    ∀ (ports : List PyVal) (rs : List (Int × Int)),
      optMapM portTokToRange ports = some rs →
      (∀ x ∈ rs, x.1 ≤ x.2) →
      ports ≠ [] →
      ∃ pairs : List (Int × Int),
        merge_port_ranges ports = some (pairs.map renderRange) ∧
        List.Chain' (fun a b : Int × Int => a.1 < b.1) pairs ∧
        List.Chain' (fun a b : Int × Int => a.2 + 2 ≤ b.1) pairs ∧
        ∀ q : Int, coversB pairs q = coversB rs q := by
  constructor
  · rfl
  intro ports rs hparse hwf hne
  have hEmpty : ports.isEmpty = false := by
    cases ports with
    | nil => exact absurd rfl hne
    | cons a l => rfl
  have hlen : rs.length = ports.length := optMapM_length hparse
  have hrs : rs ≠ [] := by
    intro hcon
    rw [hcon] at hlen
    cases ports with
    | nil => exact hne rfl
    | cons a l => simp at hlen
  have hperm : List.Perm (List.insertionSort lexLe rs) rs := List.perm_insertionSort lexLe rs
  have hsortne : List.insertionSort lexLe rs ≠ [] := by
    intro hcon
    have hl := hperm.length_eq
    rw [hcon] at hl
    simp only [List.length_nil] at hl
    exact hrs (List.length_eq_zero.mp hl.symm)
  rcases hs : List.insertionSort lexLe rs with _ | ⟨r, rest⟩
  · exact absurd hs hsortne
  have hsorted : List.Sorted lexLe (r :: rest) := by
    rw [← hs]
    exact List.sorted_insertionSort lexLe rs
  have hchainlex : List.Chain lexLe r rest := List.chain'_iff_pairwise.mpr hsorted
  have hchainfst : List.Chain (fun a b : Int × Int => a.1 ≤ b.1) r rest :=
    hchainlex.imp (fun a b hab => by unfold lexLe at hab; omega)
  have hwf' : ∀ x ∈ r :: rest, x.1 ≤ x.2 := by
    intro x hx
    refine hwf x ?_
    have : x ∈ List.insertionSort lexLe rs := by rw [hs]; exact hx
    exact hperm.mem_iff.mp this
  have hwfout : ∀ x ∈ mergeSweep r rest, x.1 ≤ x.2 :=
    mergeSweep_wf rest r (hwf' r (List.mem_cons_self _ _))
      (fun y hy => hwf' y (List.mem_cons_of_mem _ hy))
  refine ⟨mergeSweep r rest, ?_, ?_, mergeSweep_gapped rest r, ?_⟩
  · simp only [merge_port_ranges, hEmpty, hparse, hs]
    rfl
  · exact chain'_lt_of_gapped _ (mergeSweep_gapped rest r) hwfout
  · intro q
    rw [mergeSweep_covers rest r hchainfst q]
    have hc1 : coversB (r :: rest) q =
        ((decide (r.1 ≤ q) && decide (q ≤ r.2)) || coversB rest q) := by
      simp [coversB]
    rw [← hc1, ← hs]
    exact coversB_eq_of_perm hperm q

/-- Witness for C9 at a concrete unsorted input with an adjacent merge. -/
theorem c9_merge_invariants_witness :
    ∃ pairs : List (Int × Int),
      merge_port_ranges [PyVal.str "90-100", .str "80", .str "81"] =
        some (pairs.map renderRange) ∧
      List.Chain' (fun a b : Int × Int => a.1 < b.1) pairs ∧
      List.Chain' (fun a b : Int × Int => a.2 + 2 ≤ b.1) pairs ∧
      ∀ q : Int, coversB pairs q = coversB [(90, 100), (80, 80), (81, 81)] q :=
  c9_merge_invariants.2 [PyVal.str "90-100", .str "80", .str "81"]
    [(90, 100), (80, 80), (81, 81)] rfl (by decide) (by decide)
